import Mathlib

/-!
Verification development for `alert_new_targets.py` (Bounty_Diffs).

The script fetches per-platform bug-bounty scope documents, extracts
normalized target strings with a reward classification, diffs them against
the previous snapshot, and writes numbered report files.

We shallow-embed the Python code: JSON values become an inductive `Json`,
Python sets of strings become `Finset String`, and a Python exception that
is raised while mutable state has already been accumulated is modelled by
`Except ExtractState ExtractState` (the `error` branch carries the state
visible to the handler at the moment the exception propagates).

Modelling conventions, stated once:
* JSON numbers are modelled as `Int` (no claim depends on float values);
  Python truthiness of a number is `n ≠ 0`.
* `dict.get` is modelled over an association list with last-binding-wins
  lookup, matching how `json.loads` builds a dict from duplicate keys.
* Python `str.isdigit`/`int` are modelled for ASCII digits; `str.strip`
  for ASCII whitespace (space, TAB, LF, CR, VT, FF); `str.lower` via
  `String.toLower`.  The Unicode extensions of these Python methods are
  orthogonal to every claim checked here.
* Python `str()`/`repr()` of JSON-derived values is modelled without
  escape-sequence handling inside `repr` of strings (it only feeds the
  composite display string; no claim depends on escaping).
-/

inductive Json where
  | null : Json
  | bool (b : Bool) : Json
  | num (n : Int) : Json
  | str (s : String) : Json
  | arr (xs : List Json) : Json
  | obj (fields : List (String × Json)) : Json

/-- Python truthiness (`bool(x)`) of a JSON-derived value. -/
def truthy : Json → Bool
  | .null => false
  | .bool b => b
  | .num n => n != 0
  | .str s => !(s = "")
  | .arr xs => !xs.isEmpty
  | .obj fs => !fs.isEmpty

/-- Python `d.get(k)` on a dict built by `json.loads`: last binding wins. -/
def dictGet (fs : List (String × Json)) (k : String) : Option Json :=
  fs.foldl (fun acc kv => if kv.1 = k then some kv.2 else acc) none

def Json.isArr : Json → Bool
  | .arr _ => true
  | _ => false

def Json.isObj : Json → Bool
  | .obj _ => true
  | _ => false

mutual

/-- Python `repr()` of a JSON-derived value (used inside containers). -/
def pyRepr : Json → String
  | .null => "None"
  | .bool true => "True"
  | .bool false => "False"
  | .num n => toString n
  | .str s => "\x27" ++ s ++ "\x27"
  | .arr xs => "[" ++ pyReprList xs ++ "]"
  | .obj fs => "\x7b" ++ pyReprFields fs ++ "\x7d"

def pyReprList : List Json → String
  | [] => ""
  | [x] => pyRepr x
  | x :: y :: xs => pyRepr x ++ ", " ++ pyReprList (y :: xs)

def pyReprFields : List (String × Json) → String
  | [] => ""
  | [kv] => "\x27" ++ kv.1 ++ "\x27: " ++ pyRepr kv.2
  | kv :: kw :: fs => "\x27" ++ kv.1 ++ "\x27: " ++ pyRepr kv.2 ++ ", " ++ pyReprFields (kw :: fs)

end

/-- Python `str()` of a JSON-derived value, as used by an f-string. -/
def pyStr : Json → String
  | .str s => s
  | v => pyRepr v

/-- Characters stripped by Python `str.strip()` (ASCII fragment). -/
def pyIsSpace (c : Char) : Bool :=
  c = ' ' || c = '\t' || c = '\n' || c = '\r' || c = '\x0b' || c = '\x0c'

def stripChars (l : List Char) : List Char :=
  ((l.dropWhile pyIsSpace).reverse.dropWhile pyIsSpace).reverse

/-- Python `s.strip()`. -/
def pyStrip (s : String) : String :=
  String.mk (stripChars s.data)

/-- Python `s.lower()` (ASCII fragment). -/
def pyLower (s : String) : String :=
  String.mk (s.data.map Char.toLower)

/-- Python `s.endswith(t)`. -/
def pyEndsWith (s t : String) : Bool :=
  t.data.isSuffixOf s.data

/-- Python `s.startswith(t)`. -/
def pyStartsWith (s t : String) : Bool :=
  t.data.isPrefixOf s.data

/-- Python `s[:n]` (strings index by code point). -/
def strTake (s : String) (n : Nat) : String :=
  String.mk (s.data.take n)

/-- Python `s[n:]`. -/
def strDrop (s : String) (n : Nat) : String :=
  String.mk (s.data.drop n)

/-- Line 134: `has_reward = target_eligible or (not target_eligible and
program_offers_bounty)`.  `has_reward` is only ever used for its truth
value (`if has_reward:` in `mark`), so the embedding returns that truth
value. -/
def hasReward (target_eligible : Json) (program_offers_bounty : Bool) : Bool :=
  truthy target_eligible || (!truthy target_eligible && program_offers_bounty)

/-- The two mutable sets of `extract_targets_and_rewards`. -/
structure ExtractState where
  all_targets : Finset String
  rewarded : Finset String

/-- Lines 100-106: the nested `mark` helper. -/
def mark (st : ExtractState) (target : String) (has_reward : Bool) : ExtractState :=
  if target = "" || pyStrip target = "" then st
  else
    let t := pyStrip target
    { all_targets := insert t st.all_targets
      rewarded := if has_reward then insert t st.rewarded else st.rewarded }

/-- Line 117: `program.get("name") or program.get("handle", "Unknown")`. -/
def programNameVal (fs : List (String × Json)) : Json :=
  let nm := (dictGet fs "name").getD Json.null
  if truthy nm then nm else (dictGet fs "handle").getD (Json.str "Unknown")

/-- Lines 123-140: one iteration of the `for asset in in_scope` loop.
`.error st` models an exception raised by `.strip()` or `.lower()` on a
non-string field (an `AttributeError` that propagates to the handler at
line 142 with the sets unchanged by this asset). -/
def processAsset (program_name : Json) (program_offers_bounty : Bool)
    (st : ExtractState) (asset : Json) : Except ExtractState ExtractState :=
  match asset with
  | .obj fs =>
    match (dictGet fs "asset_identifier").getD (Json.str "") with
    | .str rawId =>
      let target := pyStrip rawId
      if target = "" then .ok st
      else
        let target_eligible := (dictGet fs "eligible_for_bounty").getD (Json.bool false)
        let has_reward := hasReward target_eligible program_offers_bounty
        match (dictGet fs "asset_type").getD (Json.str "other") with
        | .str ty =>
          let asset_type := pyLower ty
          let display_target := pyStr program_name ++ " (" ++ asset_type ++ ") - " ++ target
          .ok (mark st display_target has_reward)
        | _ => .error st
    | _ => .error st
  | _ => .ok st

def processAssets (program_name : Json) (program_offers_bounty : Bool)
    (st : ExtractState) : List Json → Except ExtractState ExtractState
  | [] => .ok st
  | a :: rest =>
    match processAsset program_name program_offers_bounty st a with
    | .ok st' => processAssets program_name program_offers_bounty st' rest
    | .error st' => .error st'

/-- Lines 111-140: one iteration of the `for program in programs` loop.
Iterating a Python dict yields its (string) keys and iterating a string
yields 1-character strings; none of those pass `isinstance(asset, dict)`,
so both cases leave the state unchanged, which the embedding collapses to
`.ok st`.  A value that is not iterable at all (`None`, number, boolean)
raises `TypeError` at the `for` statement: `.error st`. -/
def processProgram (st : ExtractState) (program : Json) : Except ExtractState ExtractState :=
  match program with
  | .obj fs =>
    let program_offers_bounty := truthy ((dictGet fs "offers_bounties").getD (Json.bool false))
    let program_name := programNameVal fs
    let targets_data := (dictGet fs "targets").getD (Json.obj [])
    let in_scope :=
      match targets_data with
      | .obj tfs => (dictGet tfs "in_scope").getD (Json.arr [])
      | _ => Json.arr []
    match in_scope with
    | .arr assets => processAssets program_name program_offers_bounty st assets
    | .obj _ => .ok st
    | .str _ => .ok st
    | _ => .error st
  | _ => .ok st

def processPrograms (st : ExtractState) : List Json → Except ExtractState ExtractState
  | [] => .ok st
  | p :: rest =>
    match processProgram st p with
    | .ok st' => processPrograms st' rest
    | .error st' => .error st'

/-- Line 109: `programs = data_obj if isinstance(data_obj, list) else []`. -/
def programsOf : Json → List Json
  | .arr xs => xs
  | _ => []

/-- The `except Exception` handler at line 142: whether the loop finished
normally or raised, the accumulated sets are what the function returns. -/
def recoverState : Except ExtractState ExtractState → Finset String × Finset String
  | .ok st => (st.all_targets, st.rewarded)
  | .error st => (st.all_targets, st.rewarded)

/-- Lines 92-146: `extract_targets_and_rewards(platform, data_obj)`.
The `platform` argument is used only in the warning message. -/
def extract_targets_and_rewards (platform : String) (data_obj : Json) :
    Finset String × Finset String :=
  let _ := platform
  recoverState (processPrograms ⟨∅, ∅⟩ (programsOf data_obj))

/-- Lines 232-233: `added = sorted(curr_targets - prev_targets)` and
`removed = sorted(prev_targets - curr_targets)`. -/
def diffTargets (current previous : Finset String) : List String × List String :=
  ((current \ previous).sort (· ≤ ·), (previous \ current).sort (· ≤ ·))

/-! ## Log truncation for non-rewarded targets (lines 247-256) -/

/-- Line 252: the `logger.info` line showing one non-rewarded entry. -/
def entryLine (t : String) : String :=
  "   📝 " ++ t

/-- Line 255: the `logger.info` truncation line naming the remainder. -/
def moreLine (remaining : Nat) : String :=
  "   ... and " ++ toString remaining ++ " more non-rewarded targets"

/-- Lines 250-256: the `for idx, t in enumerate(sample)` loop.  `total` is
`len(without_rewards)` and `sampleLen` is `len(sample)`; the second branch
models the `break`. -/
def nrLoop (total sampleLen : Nat) (idx : Nat) : List String → List String
  | [] => []
  | t :: rest =>
    if idx < 2 ∨ sampleLen ≤ 3 then entryLine t :: nrLoop total sampleLen (idx + 1) rest
    else if idx = 2 ∧ sampleLen < total then [moreLine (total - sampleLen)]
    else nrLoop total sampleLen (idx + 1) rest

/-- Lines 249-256: the per-target log lines produced for a list of newly
added non-rewarded targets (`sample = without_rewards[:50]`).  The count
header of line 248 is not part of the per-entry output modelled here. -/
def nonRewardedLogLines (without_rewards : List String) : List String :=
  nrLoop without_rewards.length (without_rewards.take 50).length 0 (without_rewards.take 50)

/-! ## Numbered report prefix (lines 149-161) -/

/-- Python `s.isdigit()` (ASCII fragment). -/
def pyIsDigit (s : String) : Bool :=
  !(s = "") && s.data.all Char.isDigit

def digitsVal (s : String) : Nat :=
  s.data.foldl (fun a c => a * 10 + (c.toNat - '0'.toNat)) 0

/-- Python `int(s)` for the strings fed to it here (line 156); `none`
models `ValueError`. -/
def pyInt (s : String) : Option Nat :=
  if pyIsDigit s then some (digitsVal s) else none

/-- Python `f"{n:04d}"`. -/
def pad4 (n : Nat) : String :=
  let s := toString n
  String.mk (List.replicate (4 - s.length) '0') ++ s

/-- Lines 149-161: `compute_numbered_prefix`, over the directory listing
returned by `os.listdir`. -/
def compute_numbered_prefix (listing : List String) : String :=
  let existing := listing.filter (fun f => pyEndsWith f ".txt" && pyIsDigit (strTake f 4))
  if existing.isEmpty then "0001"
  else
    let max_n := existing.foldl
      (fun max_n f =>
        match pyInt (strTake f 4) with
        | some n => if n > max_n then n else max_n
        | none => max_n)
      0
    pad4 (max_n + 1)

/-- A file of the shape the spec writes as NNNN_*.txt: a 4-digit decimal
prefix, an underscore, and a .txt suffix. -/
def isNNNNUnderscoreTxt (f : String) : Bool :=
  pyIsDigit (strTake f 4) && (strTake f 4).length = 4 &&
    pyStartsWith (strDrop f 4) "_" && pyEndsWith f ".txt"

/-- The amended description of `compute_numbered_prefix`: successor of the
largest value of the first four characters among `.txt` files whose first
four characters are decimal digits, rendered zero-padded to width 4. -/
def numberedPrefixSpec (listing : List String) : String :=
  let vals := (listing.filter (fun f => pyEndsWith f ".txt" && pyIsDigit (strTake f 4))).map
    (fun f => digitsVal (strTake f 4))
  match vals.foldr (fun n acc => some (Nat.max n (acc.getD 0))) none with
  | none => "0001"
  | some m => pad4 (m + 1)

/-! ## The orchestrator loop of `main` (lines 190-296)

The run is a function of the per-platform fetch outcomes and the state of
the per-platform snapshot files.  `http_get_json` (lines 70-74) either
returns a parsed document, raises one of `HTTPError`/`URLError`/
`TimeoutError` (all network-level failures, including non-200 statuses
and timeouts), or raises some other exception — in particular
`json.JSONDecodeError`/`UnicodeDecodeError` when the response body is not
decodable JSON.  Only the first kind is caught by the per-platform
handler at lines 218-220. -/

inductive FetchOutcome where
  | success (doc : Json) : FetchOutcome
  | netError : FetchOutcome
  | badBody : FetchOutcome

/-- The on-disk state of one platform's snapshot file. -/
inductive FileState where
  | absent : FileState
  | corrupt : FileState
  | good (doc : Json) : FileState

/-- Lines 77-84: `load_previous_snapshot`: a missing file and a stored
blob on which `json.load` raises are both reported as `None`. -/
def load_previous_snapshot : FileState → Option Json
  | .absent => none
  | .corrupt => none
  | .good doc => some doc

structure PlatformInput where
  platform : String
  fetch : FetchOutcome
  prev : FileState

/-- The accumulating run state owned by `main` (lines 205-209), plus the
sequence of `save_snapshot` writes performed. -/
structure RunAcc where
  any_changes : Bool
  total_new : Nat
  total_removed : Nat
  new_report_lines : List String
  removed_report_lines : List String
  saves : List (String × Json)

def acc0 : RunAcc :=
  ⟨false, 0, 0, [], [], []⟩

/-- Lines 212-270: one iteration of the `for platform, filename in
PLATFORM_FILES.items()` loop.  `.error ()` models an exception that
escapes the per-platform handling and reaches the top-level handler at
line 293. -/
def platformStep (acc : RunAcc) (inp : PlatformInput) : Except Unit RunAcc :=
  match inp.fetch with
  | .netError => .ok acc
  | .badBody => .error ()
  | .success current_obj =>
    let prev := load_previous_snapshot inp.prev
    let acc := { acc with saves := acc.saves ++ [(inp.platform, current_obj)] }
    match prev with
    | none => .ok acc
    | some prev_obj =>
      let curr := extract_targets_and_rewards inp.platform current_obj
      let prev' := extract_targets_and_rewards inp.platform prev_obj
      let added := (diffTargets curr.1 prev'.1).1
      let removed := (diffTargets curr.1 prev'.1).2
      let acc :=
        if added.isEmpty then acc
        else
          { acc with
            any_changes := true
            total_new := acc.total_new + added.length
            new_report_lines := acc.new_report_lines ++
              ("[" ++ inp.platform ++ "] +" ++ toString added.length ++ " new") ::
                added.map (fun t => " + " ++ t) }
      let acc :=
        if removed.isEmpty then acc
        else
          { acc with
            any_changes := true
            total_removed := acc.total_removed + removed.length
            removed_report_lines := acc.removed_report_lines ++
              ("[" ++ inp.platform ++ "] -" ++ toString removed.length ++ " removed") ::
                removed.map (fun t => " - " ++ t) }
      .ok acc

def runPlatforms (acc : RunAcc) : List PlatformInput → Except Unit RunAcc
  | [] => .ok acc
  | inp :: rest =>
    match platformStep acc inp with
    | .ok acc' => runPlatforms acc' rest
    | .error e => .error e

/-- Line 275: the report pair is written when `any_changes` and at least
one of the two line lists is nonempty. -/
def report_written (acc : RunAcc) : Bool :=
  acc.any_changes && (!acc.new_report_lines.isEmpty || !acc.removed_report_lines.isEmpty)

/-- Lines 211-296: the process exit status as a function of the platform
inputs (0 on normal completion, 1 when an exception reaches the top-level
handler). -/
def run_exit_code (inputs : List PlatformInput) : Nat :=
  match runPlatforms acc0 inputs with
  | .ok _ => 0
  | .error _ => 1

/-! ## Per-platform characterizations used to state run-level claims -/

/-- The diff a platform contributes: empty unless the fetch succeeded and
a previous snapshot was loaded. -/
def platformDiff (inp : PlatformInput) : List String × List String :=
  match inp.fetch, load_previous_snapshot inp.prev with
  | .success cur, some prev =>
    diffTargets (extract_targets_and_rewards inp.platform cur).1
      (extract_targets_and_rewards inp.platform prev).1
  | _, _ => ([], [])

def platformChanges (inp : PlatformInput) : Bool :=
  !(platformDiff inp).1.isEmpty || !(platformDiff inp).2.isEmpty

def platformNewLines (inp : PlatformInput) : List String :=
  let added := (platformDiff inp).1
  if added.isEmpty then []
  else ("[" ++ inp.platform ++ "] +" ++ toString added.length ++ " new") ::
    added.map (fun t => " + " ++ t)

def platformRemovedLines (inp : PlatformInput) : List String :=
  let removed := (platformDiff inp).2
  if removed.isEmpty then []
  else ("[" ++ inp.platform ++ "] -" ++ toString removed.length ++ " removed") ::
    removed.map (fun t => " - " ++ t)

/-- A program entry that yields zero assets without raising: a non-dict
entry, or one whose `in_scope` value iterates without ever passing
`isinstance(asset, dict)`. -/
def inScopeVal (program : Json) : Json :=
  match program with
  | .obj fs =>
    match (dictGet fs "targets").getD (Json.obj []) with
    | .obj tfs => (dictGet tfs "in_scope").getD (Json.arr [])
    | _ => Json.arr []
  | _ => Json.arr []

def harmlessEntry (program : Json) : Bool :=
  match program with
  | .obj _ =>
    match inScopeVal program with
    | .arr xs => xs.all (fun a => !a.isObj)
    | .obj _ => true
    | .str _ => true
    | _ => false
  | _ => true

/-! ## Claims -/

/-- Claim C1: for every asset the extractor processes, the reward
classification computed at line 134 holds exactly when the asset's
`eligible_for_bounty` value is truthy, or that value is falsy/absent
(its default) and the program's `offers_bounties` flag is true; when both
are falsy the asset is not classified as rewarded.  Equivalently, the
classification is the disjunction of the two flags. -/
theorem c1_reward_classification (target_eligible : Json) (program_offers_bounty : Bool) :
    (hasReward target_eligible program_offers_bounty = true ↔
      (truthy target_eligible = true ∨
        (truthy target_eligible = false ∧ program_offers_bounty = true))) ∧
    hasReward target_eligible program_offers_bounty =
      (truthy target_eligible || program_offers_bounty) := by
  unfold hasReward
  cases h : truthy target_eligible <;> cases program_offers_bounty <;> simp [h]

/-- Claim C4: the diff of lines 232-233 computes `added` and `removed` as
the two set differences over composite strings, they are disjoint, each
unions with the common part back to the corresponding input set, and both
output lists are sorted ascending lexicographically. -/
theorem c4_diff_properties (current previous : Finset String) :
    (diffTargets current previous).1.toFinset = current \ previous ∧
    (diffTargets current previous).2.toFinset = previous \ current ∧
    (diffTargets current previous).1.toFinset ∩ (diffTargets current previous).2.toFinset = ∅ ∧
    (diffTargets current previous).1.toFinset ∪ current ∩ previous = current ∧
    (diffTargets current previous).2.toFinset ∪ current ∩ previous = previous ∧
    List.Sorted (· ≤ ·) (diffTargets current previous).1 ∧
    List.Sorted (· ≤ ·) (diffTargets current previous).2 := by
  refine ⟨?_, ?_, ?_, ?_, ?_, ?_, ?_⟩
  · simp [diffTargets, Finset.sort_toFinset]
  · simp [diffTargets, Finset.sort_toFinset]
  · simp only [diffTargets, Finset.sort_toFinset]
    ext x
    simp only [Finset.mem_inter, Finset.mem_sdiff, Finset.not_mem_empty, iff_false]
    tauto
  · simp only [diffTargets, Finset.sort_toFinset]
    ext x
    simp only [Finset.mem_union, Finset.mem_inter, Finset.mem_sdiff]
    tauto
  · simp only [diffTargets, Finset.sort_toFinset]
    ext x
    simp only [Finset.mem_union, Finset.mem_inter, Finset.mem_sdiff]
    tauto
  · exact Finset.sort_sorted _ _
  · exact Finset.sort_sorted _ _

/-- Claim C2 counterexample: with 10 newly added non-rewarded targets the
log shows only entries 1 and 2 and no "... and 8 more non-rewarded
targets" line, contrary to the claimed truncation rule. -/
theorem c2_counterexample :
    nonRewardedLogLines ["t0", "t1", "t2", "t3", "t4", "t5", "t6", "t7", "t8", "t9"] =
      ["   📝 t0", "   📝 t1"] ∧
    moreLine 8 ∉
      nonRewardedLogLines ["t0", "t1", "t2", "t3", "t4", "t5", "t6", "t7", "t8", "t9"] := by
  constructor
  · decide
  · decide

theorem nrLoop_small (total sampleLen : Nat) (h : sampleLen ≤ 3) :
    ∀ (idx : Nat) (l : List String), nrLoop total sampleLen idx l = l.map entryLine := by
  intro idx l
  induction l generalizing idx with
  | nil => rfl
  | cons t rest ih => simp [nrLoop, h, ih]

theorem nrLoop_skip (total sampleLen : Nat) (h3 : 3 < sampleLen) (hts : total ≤ sampleLen) :
    ∀ (idx : Nat), 2 ≤ idx → ∀ l : List String, nrLoop total sampleLen idx l = [] := by
  intro idx hidx l
  induction l generalizing idx with
  | nil => rfl
  | cons t rest ih =>
    have h1 : ¬ (idx < 2 ∨ sampleLen ≤ 3) := by omega
    have h2 : ¬ (idx = 2 ∧ sampleLen < total) := by omega
    simp only [nrLoop, if_neg h1, if_neg h2]
    exact ih (idx + 1) (by omega)

theorem nrLoop_mid (total sampleLen : Nat) (h3 : 3 < sampleLen) (hts : total ≤ sampleLen)
    (a b : String) (rest : List String) :
    nrLoop total sampleLen 0 (a :: b :: rest) = [entryLine a, entryLine b] := by
  simp only [nrLoop]
  rw [if_pos (Or.inl (by omega)), if_pos (Or.inl (by omega)),
    nrLoop_skip total sampleLen h3 hts 2 (by omega) rest]

theorem nrLoop_big (total : Nat) (h : 50 < total) (a b c : String) (rest : List String) :
    nrLoop total 50 0 (a :: b :: c :: rest) =
      [entryLine a, entryLine b, moreLine (total - 50)] := by
  simp only [nrLoop]
  rw [if_pos (Or.inl (by omega)), if_pos (Or.inl (by omega)),
    if_neg (by omega : ¬ ((2:Nat) < 2 ∨ (50:Nat) ≤ 3)), if_pos ⟨trivial, h⟩]

/-- Claim C2 amended: the log shows the first 2 entries individually when
more than 3 entries exist, and all entries when 3 or fewer exist; the
single "... and N more non-rewarded targets" line appears only when more
than 50 entries exist, with N equal to the total minus the 50-entry
sample size — never for totals between 4 and 50, and in particular not
for 10 entries. -/
theorem c2_truncation (l : List String) :
    nonRewardedLogLines l =
      if l.length ≤ 3 then l.map entryLine
      else if l.length ≤ 50 then (l.take 2).map entryLine
      else (l.take 2).map entryLine ++ [moreLine (l.length - 50)] := by
  unfold nonRewardedLogLines
  by_cases h3 : l.length ≤ 3
  · have htake : l.take 50 = l := List.take_of_length_le (by omega)
    rw [htake, if_pos h3]
    exact nrLoop_small _ _ h3 0 l
  · by_cases h50 : l.length ≤ 50
    · have htake : l.take 50 = l := List.take_of_length_le h50
      rw [htake, if_neg h3, if_pos h50]
      obtain _ | ⟨a, _ | ⟨b, rest⟩⟩ := l
      · simp at h3
      · simp at h3
      · have hlen : 3 < (a :: b :: rest).length := by omega
        rw [nrLoop_mid _ _ hlen (le_refl _) a b rest]
        simp [List.take]
    · rw [if_neg h3, if_neg h50]
      obtain _ | ⟨a, _ | ⟨b, _ | ⟨c, r⟩⟩⟩ := l
      · simp at h50
      · simp at h50
      · simp at h50
      · have hsample : (a :: b :: c :: r).take 50 = a :: b :: c :: r.take 47 := rfl
        have hslen : (r.take 47).length = 47 := by
          rw [List.length_take]
          simp only [List.length_cons] at h50
          omega
        rw [hsample]
        have h50' : 50 < (a :: b :: c :: r).length := by omega
        have hlen50 : (a :: b :: c :: r.take 47).length = 50 := by
          simp only [List.length_cons, hslen]
        rw [hlen50, nrLoop_big _ h50' a b c (r.take 47)]
        simp [List.take]

/-- Claim C8 counterexample: a `.txt` file with four leading digits but no
underscore after them is not of the form NNNN_*.txt, yet
`compute_numbered_prefix` takes its digit prefix into account: on a
directory holding only "1234x.txt" the claim predicts "0001" while the
code produces "1235". -/
theorem c8_counterexample :
    isNNNNUnderscoreTxt "1234x.txt" = false ∧
    compute_numbered_prefix ["1234x.txt"] = "1235" ∧
    compute_numbered_prefix ["1234x.txt"] ≠ "0001" := by
  refine ⟨by decide, by decide, by decide⟩

theorem foldl_digit_max (l : List String) (m : Nat)
    (h : ∀ f ∈ l, pyIsDigit (strTake f 4) = true) :
    l.foldl
      (fun max_n f =>
        match pyInt (strTake f 4) with
        | some n => if n > max_n then n else max_n
        | none => max_n)
      m =
      Nat.max m (l.foldr (fun f acc => Nat.max (digitsVal (strTake f 4)) acc) 0) := by
  induction l generalizing m with
  | nil => simp
  | cons f t ih =>
    have hf : pyIsDigit (strTake f 4) = true := h f (by simp)
    have hint : pyInt (strTake f 4) = some (digitsVal (strTake f 4)) := by
      unfold pyInt
      rw [if_pos hf]
    simp only [List.foldl_cons, List.foldr_cons, hint]
    have hstep :
        (if digitsVal (strTake f 4) > m then digitsVal (strTake f 4) else m) =
          Nat.max m (digitsVal (strTake f 4)) := by
      split
      · next hgt => exact (Nat.max_eq_right (Nat.le_of_lt hgt)).symm
      · next hle => exact (Nat.max_eq_left (Nat.le_of_not_lt hle)).symm
    rw [hstep, ih _ (fun g hg => h g (by simp [hg]))]
    exact Nat.max_assoc m _ _

theorem foldr_opt_max (g : String → Nat) (vs : List String) (h : vs ≠ []) :
    vs.foldr (fun x acc => some (Nat.max (g x) (acc.getD 0))) none =
      some (vs.foldr (fun x acc => Nat.max (g x) acc) 0) := by
  induction vs with
  | nil => exact absurd rfl h
  | cons v ws ih =>
    cases ws with
    | nil => rfl
    | cons w ws' =>
      simp only [List.foldr_cons] at ih ⊢
      rw [ih (by simp)]
      rfl

/-- Claim C8 amended: the numbered report prefix is the zero-padded (to
width 4) successor of the largest value of the first four characters
among `.txt` files in the directory whose first four characters are all
decimal digits — the underscore after the digits is not required — and
"0001" when no such file exists.  The claimed scenarios (files
0001_*.txt..0007_*.txt give 0008, an empty directory gives 0001) are
instances. -/
theorem c8_numbered_prefix (listing : List String) :
    compute_numbered_prefix listing = numberedPrefixSpec listing := by
  simp only [ compute_numbered_prefix, numberedPrefixSpec]
  by_cases he : listing.filter (fun f => pyEndsWith f ".txt" && pyIsDigit (strTake f 4)) = []
  · rw [he]
    rfl
  · have hmem : ∀ f ∈ listing.filter (fun f => pyEndsWith f ".txt" && pyIsDigit (strTake f 4)),
        pyIsDigit (strTake f 4) = true := by
      intro f hf
      have := (List.mem_filter.mp hf).2
      exact (Bool.and_eq_true _ _ |>.mp this).2
    rw [if_neg (by simpa [List.isEmpty_iff] using he)]
    rw [foldl_digit_max _ 0 hmem]
    simp only [List.foldr_map]
    rw [foldr_opt_max (fun f => digitsVal (strTake f 4)) _ he]
    simp

/-- Claim C3: extraction is total (the internal `except Exception` makes
the function return whatever the loop accumulated whether it finished or
raised), and a document that is not a JSON list yields the empty pair of
sets. -/
theorem c3_extract_total (platform : String) (data_obj : Json) :
    extract_targets_and_rewards platform data_obj =
      recoverState (processPrograms ⟨∅, ∅⟩ (programsOf data_obj)) ∧
    (data_obj.isArr = false → extract_targets_and_rewards platform data_obj = (∅, ∅)) := by
  refine ⟨rfl, ?_⟩
  intro h
  cases data_obj with
  | arr xs => simp [Json.isArr] at h
  | null => rfl
  | bool b => rfl
  | num n => rfl
  | str s => rfl
  | obj fs => rfl

theorem c3_witness :
    extract_targets_and_rewards "HACKERONE" Json.null = (∅, ∅) :=
  (c3_extract_total "HACKERONE" Json.null).2 rfl

/-- Claim C7: a missing snapshot file and a stored snapshot that fails to
parse are both loaded as `None`; in either case the run saves the freshly
fetched document for that platform and continues with the next platform
without diffing and without touching any report state. -/
theorem c7_seed_only (acc : RunAcc) (name : String) (doc : Json) (rest : List PlatformInput) :
    load_previous_snapshot FileState.absent = none ∧
    load_previous_snapshot FileState.corrupt = none ∧
    runPlatforms acc (⟨name, FetchOutcome.success doc, FileState.absent⟩ :: rest) =
      runPlatforms { acc with saves := acc.saves ++ [(name, doc)] } rest ∧
    runPlatforms acc (⟨name, FetchOutcome.success doc, FileState.corrupt⟩ :: rest) =
      runPlatforms { acc with saves := acc.saves ++ [(name, doc)] } rest :=
  ⟨rfl, rfl, rfl, rfl⟩

/-- Claim C6 counterexample: a response body that is not decodable JSON
makes `json.loads` raise an error that is not among the exception types
caught per-platform, so it reaches the top-level handler: the run exits
with status 1 and later platforms are never processed — while the same
run without the bad platform completes with status 0. -/
theorem c6_counterexample :
    run_exit_code
      [⟨"BUGCROWD", FetchOutcome.badBody, FileState.absent⟩,
        ⟨"HACKERONE", FetchOutcome.success (Json.arr []), FileState.good (Json.arr [])⟩] = 1 ∧
    runPlatforms acc0
      [⟨"BUGCROWD", FetchOutcome.badBody, FileState.absent⟩,
        ⟨"HACKERONE", FetchOutcome.success (Json.arr []), FileState.good (Json.arr [])⟩] =
      .error () ∧
    run_exit_code
      [⟨"HACKERONE", FetchOutcome.success (Json.arr []), FileState.good (Json.arr [])⟩] = 0 := by
  refine ⟨rfl, rfl, ?_⟩
  have h : extract_targets_and_rewards "HACKERONE" (Json.arr []) = (∅, ∅) := rfl
  simp [run_exit_code, runPlatforms, platformStep, load_previous_snapshot, h, diffTargets,
    Finset.sdiff_self, Finset.sort_empty]

/-- Claim C6 amended: a fetch failure of the kinds caught at lines
218-220 — `HTTPError` (non-200 response), `URLError` (network error) and
`TimeoutError` — is confined to its platform: the loop state is unchanged
and the remaining platforms are processed exactly as they would be
without that platform.  A response body that cannot be decoded as JSON is
not among those kinds: it raises out of the loop and aborts the run (see
the counterexample). -/
theorem c6_net_error_confined (acc : RunAcc) (name : String) (prev : FileState)
    (rest : List PlatformInput) :
    platformStep acc ⟨name, FetchOutcome.netError, prev⟩ = .ok acc ∧
    runPlatforms acc (⟨name, FetchOutcome.netError, prev⟩ :: rest) = runPlatforms acc rest :=
  ⟨rfl, rfl⟩

theorem processPrograms_append (st : ExtractState) (l1 l2 : List Json) :
    processPrograms st (l1 ++ l2) =
      match processPrograms st l1 with
      | .ok st' => processPrograms st' l2
      | .error st' => .error st' := by
  induction l1 generalizing st with
  | nil => rfl
  | cons p t ih =>
    simp only [List.cons_append, processPrograms]
    cases processProgram st p with
    | ok st' => exact ih st'
    | error st' => rfl

theorem processAssets_all_skipped (program_name : Json) (program_offers_bounty : Bool)
    (st : ExtractState) (xs : List Json) (h : ∀ a ∈ xs, a.isObj = false) :
    processAssets program_name program_offers_bounty st xs = .ok st := by
  induction xs with
  | nil => rfl
  | cons a t ih =>
    have ha : a.isObj = false := h a (by simp)
    have hstep : processAsset program_name program_offers_bounty st a = .ok st := by
      cases a with
      | obj fs => simp [Json.isObj] at ha
      | null => rfl
      | bool b => rfl
      | num n => rfl
      | str s => rfl
      | arr ys => rfl
    simp only [processAssets, hstep]
    exact ih (fun a ha' => h a (by simp [ha']))

theorem processProgram_harmless (st : ExtractState) (p : Json) (h : harmlessEntry p = true) :
    processProgram st p = .ok st := by
  cases p with
  | obj fs =>
    simp only [harmlessEntry, inScopeVal] at h
    simp only [processProgram]
    cases htd : (dictGet fs "targets").getD (Json.obj []) with
    | obj tfs =>
      rw [htd] at h
      dsimp only at h ⊢
      cases his : (dictGet tfs "in_scope").getD (Json.arr []) with
      | arr xs =>
        rw [his] at h
        have h' : xs.all (fun a => !a.isObj) = true := h
        refine processAssets_all_skipped _ _ st xs ?_
        intro a ha
        simpa using List.all_eq_true.mp h' a ha
      | obj o => rfl
      | str s => rfl
      | null => rw [his] at h; exact Bool.noConfusion h
      | bool b => rw [his] at h; exact Bool.noConfusion h
      | num n => rw [his] at h; exact Bool.noConfusion h
    | null => rfl
    | bool b => rfl
    | num n => rfl
    | str s => rfl
    | arr ys => rfl
  | null => rfl
  | bool b => rfl
  | num n => rfl
  | str s => rfl
  | arr ys => rfl

/-- Claim C5 counterexample: a program entry whose `targets.in_scope` is
`null` (a malformed `in_scope`) is not skipped gracefully: iterating it
raises `TypeError`, the catch-all returns the sets accumulated so far,
and a well-formed program entry appearing after it is not extracted — so
its target is missing from the result. -/
theorem c5_counterexample :
    extract_targets_and_rewards "X"
      (Json.arr
        [Json.obj [("name", Json.str "A"), ("targets", Json.obj [("in_scope", Json.null)])],
          Json.obj [("name", Json.str "B"), ("offers_bounties", Json.bool true),
            ("targets", Json.obj [("in_scope", Json.arr [Json.obj
              [("asset_identifier", Json.str "b.com"),
                ("asset_type", Json.str "domain")]])])]]) = (∅, ∅) ∧
    "B (domain) - b.com" ∈
      (extract_targets_and_rewards "X"
        (Json.arr
          [Json.obj [("name", Json.str "B"), ("offers_bounties", Json.bool true),
            ("targets", Json.obj [("in_scope", Json.arr [Json.obj
              [("asset_identifier", Json.str "b.com"),
                ("asset_type", Json.str "domain")]])])]])).1 := by
  exact ⟨rfl, by decide⟩

/-- Claim C5 amended: a program entry that is not a dict, or whose
`targets` is not a dict, or whose `in_scope` key is missing, or whose
`in_scope` value iterates without producing any dict element (a list of
non-dicts, a dict, or a string) yields zero assets and leaves the
extraction of every other entry — before or after it — unchanged.  A
program entry whose `in_scope` is `null`, a number or a boolean instead
raises inside the loop and ends extraction at that point (see the
counterexample), so the claim's "any malformed `in_scope`" must be
restricted to the non-raising shapes above. -/
theorem c5_malformed_in_scope (platform : String) (l1 l2 : List Json) (p : Json)
    (h : harmlessEntry p = true) :
    extract_targets_and_rewards platform (Json.arr (l1 ++ p :: l2)) =
      extract_targets_and_rewards platform (Json.arr (l1 ++ l2)) := by
  unfold extract_targets_and_rewards
  simp only [programsOf]
  rw [processPrograms_append, processPrograms_append]
  cases processPrograms ⟨∅, ∅⟩ l1 with
  | error st => rfl
  | ok st =>
    simp only [processPrograms, processProgram_harmless st p h]

theorem c5_witness :
    extract_targets_and_rewards "X"
      (Json.arr ([Json.obj [("name", Json.str "C")]] ++
        Json.obj [("name", Json.str "A"), ("targets", Json.obj [("in_scope", Json.str "x")])] ::
          [Json.obj [("name", Json.str "B"), ("offers_bounties", Json.bool true),
            ("targets", Json.obj [("in_scope", Json.arr [Json.obj
              [("asset_identifier", Json.str "b.com"),
                ("asset_type", Json.str "domain")]])])]])) =
      extract_targets_and_rewards "X"
        (Json.arr ([Json.obj [("name", Json.str "C")]] ++
          [Json.obj [("name", Json.str "B"), ("offers_bounties", Json.bool true),
            ("targets", Json.obj [("in_scope", Json.arr [Json.obj
              [("asset_identifier", Json.str "b.com"),
                ("asset_type", Json.str "domain")]])])]])) :=
  c5_malformed_in_scope "X" _ _ _ (by decide)

theorem platformNewLines_isEmpty (inp : PlatformInput) :
    (platformNewLines inp).isEmpty = (platformDiff inp).1.isEmpty := by
  by_cases h : (platformDiff inp).1.isEmpty <;> simp [platformNewLines, h]

theorem platformRemovedLines_isEmpty (inp : PlatformInput) :
    (platformRemovedLines inp).isEmpty = (platformDiff inp).2.isEmpty := by
  by_cases h : (platformDiff inp).2.isEmpty <;> simp [platformRemovedLines, h]

theorem platformStep_char (acc : RunAcc) (inp : PlatformInput) (acc' : RunAcc)
    (h : platformStep acc inp = .ok acc') :
    acc'.any_changes = (acc.any_changes || platformChanges inp) ∧
    acc'.new_report_lines = acc.new_report_lines ++ platformNewLines inp ∧
    acc'.removed_report_lines = acc.removed_report_lines ++ platformRemovedLines inp := by
  obtain ⟨name, fetch, prev⟩ := inp
  cases fetch with
  | netError =>
    injection h with h
    subst h
    simp [platformChanges, platformDiff, platformNewLines, platformRemovedLines]
  | badBody => exact Except.noConfusion h
  | success doc =>
    simp only [platformStep] at h
    cases hp : load_previous_snapshot prev with
    | none =>
      rw [hp] at h
      dsimp only at h
      injection h with h
      subst h
      simp [platformChanges, platformDiff, platformNewLines, platformRemovedLines, hp]
    | some prev_obj =>
      rw [hp] at h
      dsimp only at h
      injection h with h
      subst h
      have hd : platformDiff ⟨name, FetchOutcome.success doc, prev⟩ =
          diffTargets (extract_targets_and_rewards name doc).1
            (extract_targets_and_rewards name prev_obj).1 := by
        simp [platformDiff, hp]
      by_cases ha : (diffTargets (extract_targets_and_rewards name doc).1
          (extract_targets_and_rewards name prev_obj).1).1.isEmpty <;>
      by_cases hr : (diffTargets (extract_targets_and_rewards name doc).1
          (extract_targets_and_rewards name prev_obj).1).2.isEmpty <;>
      refine ⟨?_, ?_, ?_⟩ <;>
      simp [platformChanges, platformNewLines, platformRemovedLines, hd, ha, hr]

theorem runPlatforms_char (inputs : List PlatformInput) (acc acc' : RunAcc)
    (h : runPlatforms acc inputs = .ok acc') :
    acc'.any_changes = (acc.any_changes || inputs.any platformChanges) ∧
    acc'.new_report_lines = acc.new_report_lines ++ inputs.flatMap platformNewLines ∧
    acc'.removed_report_lines =
      acc.removed_report_lines ++ inputs.flatMap platformRemovedLines := by
  induction inputs generalizing acc with
  | nil =>
    injection h with h
    subst h
    simp
  | cons i t ih =>
    simp only [runPlatforms] at h
    cases hs : platformStep acc i with
    | error e => rw [hs] at h; exact Except.noConfusion h
    | ok acc1 =>
      rw [hs] at h
      obtain ⟨h1, h2, h3⟩ := platformStep_char acc i acc1 hs
      obtain ⟨g1, g2, g3⟩ := ih acc1 h
      refine ⟨?_, ?_, ?_⟩
      · rw [g1, h1, List.any_cons, Bool.or_assoc]
      · rw [g2, h2, List.flatMap_cons, List.append_assoc]
      · rw [g3, h3, List.flatMap_cons, List.append_assoc]

theorem isEmpty_append_list (a b : List String) :
    (a ++ b).isEmpty = (a.isEmpty && b.isEmpty) := by
  cases a <;> simp [List.isEmpty]

theorem any_changes_eq_lines (inputs : List PlatformInput) :
    inputs.any platformChanges =
      (!(inputs.flatMap platformNewLines).isEmpty ||
        !(inputs.flatMap platformRemovedLines).isEmpty) := by
  induction inputs with
  | nil => rfl
  | cons i t ih =>
    simp only [List.any_cons, List.flatMap_cons, ih, platformChanges]
    rw [isEmpty_append_list, isEmpty_append_list,
      platformNewLines_isEmpty, platformRemovedLines_isEmpty]
    cases h1 : (platformDiff i).1.isEmpty <;> cases h2 : (platformDiff i).2.isEmpty <;>
      cases h3 : (t.flatMap platformNewLines).isEmpty <;>
      cases h4 : (t.flatMap platformRemovedLines).isEmpty <;> simp

/-- Claim C9: on a run that completes, the report pair is written exactly
when some platform contributed an added or removed target, and the "new
targets" line list is, platform by platform, a header
"[PLATFORM] +N new" followed by one " + "-prefixed line per added target;
symmetrically for the removed list with "-N removed" and " - ". -/
theorem c9_report_files (inputs : List PlatformInput) (acc : RunAcc)
    (h : runPlatforms acc0 inputs = .ok acc) :
    report_written acc = inputs.any platformChanges ∧
    acc.new_report_lines = inputs.flatMap platformNewLines ∧
    acc.removed_report_lines = inputs.flatMap platformRemovedLines := by
  obtain ⟨h1, h2, h3⟩ := runPlatforms_char inputs acc0 acc h
  simp only [acc0] at h1 h2 h3
  rw [List.nil_append] at h2 h3
  refine ⟨?_, h2, h3⟩
  rw [report_written, h1, h2, h3, Bool.false_or, any_changes_eq_lines]
  cases h3 : (inputs.flatMap platformNewLines).isEmpty <;>
    cases h4 : (inputs.flatMap platformRemovedLines).isEmpty <;> simp [h3, h4]

theorem c9_witness :
    report_written ⟨false, 0, 0, [], [], [("HACKERONE", Json.arr [])]⟩ =
      [(⟨"HACKERONE", FetchOutcome.success (Json.arr []),
        FileState.good (Json.arr [])⟩ : PlatformInput)].any platformChanges ∧
    (⟨false, 0, 0, [], [], [("HACKERONE", Json.arr [])]⟩ : RunAcc).new_report_lines =
      [(⟨"HACKERONE", FetchOutcome.success (Json.arr []),
        FileState.good (Json.arr [])⟩ : PlatformInput)].flatMap platformNewLines ∧
    (⟨false, 0, 0, [], [], [("HACKERONE", Json.arr [])]⟩ : RunAcc).removed_report_lines =
      [(⟨"HACKERONE", FetchOutcome.success (Json.arr []),
        FileState.good (Json.arr [])⟩ : PlatformInput)].flatMap platformRemovedLines := by
  refine c9_report_files _ _ ?_
  have he : extract_targets_and_rewards "HACKERONE" (Json.arr []) = (∅, ∅) := rfl
  simp [runPlatforms, platformStep, load_previous_snapshot, he, diffTargets,
    Finset.sdiff_self, Finset.sort_empty, acc0]

/-- The state the extraction handler sees, whether the loop finished
(`ok`) or an exception was caught (`error`). -/
def resultState : Except ExtractState ExtractState → ExtractState
  | .ok st => st
  | .error st => st

theorem recoverState_eq (e : Except ExtractState ExtractState) :
    recoverState e = ((resultState e).all_targets, (resultState e).rewarded) := by
  cases e <;> rfl

theorem stripChars_eq (l : List Char) :
    stripChars l = List.rdropWhile pyIsSpace (l.dropWhile pyIsSpace) := rfl

theorem head_of_append_eq (m u v : List Char) (huv : u ++ v = m) (h0 : 0 < u.length)
    (hlt : 0 < m.length) : u.get ⟨0, h0⟩ = m.get ⟨0, hlt⟩ := by
  subst huv
  simp only [List.get_eq_getElem]
  exact (List.getElem_append_left h0).symm

theorem dropWhile_rdropWhile_self (m : List Char) (hm : m.dropWhile pyIsSpace = m) :
    (List.rdropWhile pyIsSpace m).dropWhile pyIsSpace = List.rdropWhile pyIsSpace m := by
  rw [List.dropWhile_eq_self_iff] at hm ⊢
  intro h0
  obtain ⟨t, ht⟩ := List.rdropWhile_prefix pyIsSpace m
  have hlt : 0 < m.length := by
    rw [← ht, List.length_append]
    omega
  rw [head_of_append_eq m (List.rdropWhile pyIsSpace m) t ht h0 hlt]
  exact hm hlt

theorem stripChars_idem (l : List Char) : stripChars (stripChars l) = stripChars l := by
  rw [stripChars_eq l, stripChars_eq,
    dropWhile_rdropWhile_self _ (List.dropWhile_idempotent _ _)]
  exact List.rdropWhile_idempotent _ _

theorem pyStrip_idem (s : String) : pyStrip (pyStrip s) = pyStrip s := by
  show String.mk (stripChars (stripChars s.data)) = String.mk (stripChars s.data)
  exact congrArg String.mk (stripChars_idem s.data)

/-- The invariant of the two accumulated sets: the rewarded set is a
subset of the set of all targets, and every member was stripped and
checked non-blank by `mark` before insertion. -/
def StInv (st : ExtractState) : Prop :=
  st.rewarded ⊆ st.all_targets ∧ ∀ s ∈ st.all_targets, s ≠ "" ∧ pyStrip s = s

theorem mark_inv (st : ExtractState) (target : String) (b : Bool) (h : StInv st) :
    StInv (mark st target b) := by
  unfold mark
  split
  · exact h
  · next hc =>
    have hc' : ¬(target = "") ∧ ¬(pyStrip target = "") := by
      simpa [not_or] using hc
    dsimp only
    constructor
    · cases b with
      | true => exact Finset.insert_subset_insert _ h.1
      | false => exact h.1.trans (Finset.subset_insert _ _)
    · intro s hs
      rcases Finset.mem_insert.mp hs with rfl | hs'
      · exact ⟨hc'.2, pyStrip_idem target⟩
      · exact h.2 s hs'

theorem processAsset_inv (program_name : Json) (b : Bool) (st : ExtractState) (a : Json)
    (h : StInv st) : StInv (resultState (processAsset program_name b st a)) := by
  cases a with
  | obj fs =>
    simp only [processAsset]
    cases (dictGet fs "asset_identifier").getD (Json.str "") with
    | str rawId =>
      dsimp only
      by_cases ht : pyStrip rawId = ""
      · rw [if_pos ht]
        exact h
      · rw [if_neg ht]
        cases (dictGet fs "asset_type").getD (Json.str "other") with
        | str ty => exact mark_inv st _ _ h
        | null => exact h
        | bool b' => exact h
        | num n => exact h
        | arr xs => exact h
        | obj o => exact h
    | null => exact h
    | bool b' => exact h
    | num n => exact h
    | arr xs => exact h
    | obj o => exact h
  | null => exact h
  | bool b' => exact h
  | num n => exact h
  | str s => exact h
  | arr xs => exact h

theorem processAssets_inv (program_name : Json) (b : Bool) (st : ExtractState)
    (l : List Json) (h : StInv st) :
    StInv (resultState (processAssets program_name b st l)) := by
  induction l generalizing st with
  | nil => exact h
  | cons a t ih =>
    simp only [processAssets]
    cases hE : processAsset program_name b st a with
    | ok st' =>
      have hst' := processAsset_inv program_name b st a h
      rw [hE] at hst'
      exact ih st' hst'
    | error st' =>
      have hst' := processAsset_inv program_name b st a h
      rw [hE] at hst'
      exact hst'

theorem processProgram_inv (st : ExtractState) (p : Json) (h : StInv st) :
    StInv (resultState (processProgram st p)) := by
  cases p with
  | obj fs =>
    simp only [processProgram]
    cases (dictGet fs "targets").getD (Json.obj []) with
    | obj tfs =>
      dsimp only
      cases (dictGet tfs "in_scope").getD (Json.arr []) with
      | arr xs => exact processAssets_inv _ _ st xs h
      | null => exact h
      | bool b' => exact h
      | num n => exact h
      | str s => exact h
      | obj o => exact h
    | null => exact h
    | bool b' => exact h
    | num n => exact h
    | str s => exact h
    | arr ys => exact h
  | null => exact h
  | bool b' => exact h
  | num n => exact h
  | str s => exact h
  | arr ys => exact h

theorem processPrograms_inv (st : ExtractState) (l : List Json) (h : StInv st) :
    StInv (resultState (processPrograms st l)) := by
  induction l generalizing st with
  | nil => exact h
  | cons p t ih =>
    simp only [processPrograms]
    cases hE : processProgram st p with
    | ok st' =>
      have hst' := processProgram_inv st p h
      rw [hE] at hst'
      exact ih st' hst'
    | error st' =>
      have hst' := processProgram_inv st p h
      rw [hE] at hst'
      exact hst'

/-- Claim C10: the rewarded set returned by extraction is a subset of the
set of all targets, and every member of either set is non-empty and
unchanged by stripping (it was stripped and checked non-blank before
insertion). -/
theorem c10_extract_invariant (platform : String) (data_obj : Json) :
    (extract_targets_and_rewards platform data_obj).2 ⊆
      (extract_targets_and_rewards platform data_obj).1 ∧
    ∀ s ∈ (extract_targets_and_rewards platform data_obj).1, s ≠ "" ∧ pyStrip s = s := by
  have h0 : StInv ⟨∅, ∅⟩ := ⟨Finset.Subset.refl _, by simp⟩
  have h := processPrograms_inv ⟨∅, ∅⟩ (programsOf data_obj) h0
  unfold extract_targets_and_rewards
  rw [recoverState_eq]
  exact ⟨h.1, h.2⟩

theorem c10_witness :
    ("Acme (domain) - a.com" ≠ "" ∧ pyStrip "Acme (domain) - a.com" = "Acme (domain) - a.com") :=
  (c10_extract_invariant "X"
    (Json.arr [Json.obj [("name", Json.str "Acme"),
      ("targets", Json.obj [("in_scope", Json.arr [Json.obj
        [("asset_identifier", Json.str "a.com"),
          ("asset_type", Json.str "domain")]])])]])).2
    "Acme (domain) - a.com" (by decide)

/-- The end-to-end extraction of the spec's worked example: one program
offering bounties with one in-scope domain asset not individually
eligible — its composite target is extracted and classified rewarded via
the program-level flag. -/
theorem extract_worked_example :
    extract_targets_and_rewards "P"
      (Json.arr [Json.obj [("name", Json.str "Acme"), ("offers_bounties", Json.bool true),
        ("targets", Json.obj [("in_scope", Json.arr [Json.obj
          [("asset_identifier", Json.str "a.com"), ("asset_type", Json.str "domain"),
           ("eligible_for_bounty", Json.bool false)]])])]]) =
      ({"Acme (domain) - a.com"}, {"Acme (domain) - a.com"}) := by
  decide
